import Mathlib

/-!
Verification of `plot_results.py` (quantum-inference repository).

The script loads a CSV of benchmark trials into a pandas DataFrame and
computes four aggregate views plus a textual summary.  We embed the data
model and the aggregation logic of each function shallowly:

* a row of the CSV is a `Trial`; the loaded table is a `DataFrame`,
  which carries the CSV rows together with the optional derived `range`
  column (`pd.cut` output) that `plot_success_by_range` and
  `generate_summary_stats` assign into the frame in place
  (`df['range'] = pd.cut(...)`, lines 116 and 171 of the source);
* numeric columns are embedded as `ℚ` (exact arithmetic in place of
  IEEE doubles; none of the verified claims depends on rounding);
* `groupby(k)` is embedded as: sort the distinct keys ascending
  (pandas sorts group keys), and for each key take the rows with that
  key — `groupKeys` below;
* pandas `std` (ddof = 1) is a square root, which is irrational; the
  embedding carries its square `stdSq` (the sample variance, `none`
  for groups of size ≤ 1 where pandas yields NaN).  No claim reads the
  numeric value of a std column, so the squaring is lossless for them;
* the mean of an empty selection is NaN in pandas; where a mean can
  legitimately be applied to an empty selection we return `none`
  (`meanOpt`); inside a `groupby` aggregation every group is nonempty
  except for unobserved categories of the `range` column, whose NaN
  rate we embed as `0/0 = 0` — both NaN and `0` fall into the final
  `else` branch of the bar-colouring code, which is the only consumer.

Each plotting function returns its derived view together with the
DataFrame as it stands after the call, so that frame (mutation) claims
are statable.
-/

namespace PlotResults

/-- One row of `benchmark-results.csv`: columns `N`, `phi`,
`phi_divisors`, `strategy`, `success`, `time_ms`. -/
structure Trial where
  N : Int
  phi : Int
  phi_divisors : Int
  strategy : String
  success : Bool
  time_ms : ℚ
deriving DecidableEq, Repr

/-- The loaded table: the CSV rows, plus the derived `range` column when
one has been assigned into the frame (`df['range'] = pd.cut(...)`).  A
freshly loaded table has `rangeCol = none`. -/
structure DataFrame where
  rows : List Trial
  rangeCol : Option (List (Option String))
deriving DecidableEq, Repr

/-- A pandas boolean participates in numeric aggregation as 0/1. -/
def boolQ (b : Bool) : ℚ := if b then 1 else 0

/-- Mean of a list of rationals (`0` on the empty list; used only where
the list is a nonempty group, except for the unobserved-category case
discussed in the file header). -/
def listMean (xs : List ℚ) : ℚ := xs.sum / xs.length

/-- Mean of a possibly-empty selection: pandas yields NaN on empty,
embedded as `none`. -/
def meanOpt (xs : List ℚ) : Option ℚ :=
  if xs.isEmpty then none else some (xs.sum / xs.length)

/-- Square of pandas `std` (ddof = 1): the sample variance.  `none` for
lists of length ≤ 1, where pandas `std` is NaN. -/
def sampleVar (xs : List ℚ) : Option ℚ :=
  if xs.length ≤ 1 then none
  else some ((xs.map (fun x => (x - listMean xs) ^ 2)).sum / ((xs.length - 1 : ℕ) : ℚ))

/-- The keys of a pandas `groupby`: the distinct key values in ascending
order. -/
def groupKeys (ks : List Int) : List Int :=
  List.insertionSort (· ≤ ·) ks.dedup

/-- One row of the `success_by_n` aggregation of `plot_success_vs_n`:
columns `N`, `success_rate`, `std`, `count` (the std column is carried
squared, see header). -/
structure NGroup where
  N : Int
  success_rate : ℚ
  stdSq : Option ℚ
  count : Nat
deriving DecidableEq, Repr

/-- `plot_success_vs_n` lines 26–31: group by `N`, aggregate `success`
by mean/std/count, scale the rate and the std to percent. -/
def success_by_n (rows : List Trial) : List NGroup :=
  (groupKeys (rows.map (fun t => t.N))).map (fun k =>
    let g := rows.filter (fun t => t.N = k)
    let vals := g.map (fun t => boolQ t.success)
    { N := k
      success_rate := 100 * listMean vals
      stdSq := (sampleVar vals).map (fun v => 10000 * v)
      count := g.length })

/-- `plot_success_vs_n`: view plus the table as the function leaves it
(it never assigns into `df`). -/
def plot_success_vs_n (df : DataFrame) : List NGroup × DataFrame :=
  (success_by_n df.rows, df)

/-- One row of the `grouped` aggregation of
`plot_success_vs_phi_divisors`: mean success (in percent) and mean `N`
per `phi_divisors` value. -/
structure PhiGroup where
  phi_divisors : Int
  success : ℚ
  N : ℚ
deriving DecidableEq, Repr

/-- `plot_success_vs_phi_divisors` lines 56–60. -/
def success_by_phi (rows : List Trial) : List PhiGroup :=
  (groupKeys (rows.map (fun t => t.phi_divisors))).map (fun k =>
    let g := rows.filter (fun t => t.phi_divisors = k)
    { phi_divisors := k
      success := 100 * listMean (g.map (fun t => boolQ t.success))
      N := listMean (g.map (fun t => (t.N : ℚ))) })

/-- `plot_success_vs_phi_divisors`: view plus the unmodified table. -/
def plot_success_vs_phi_divisors (df : DataFrame) : List PhiGroup × DataFrame :=
  (success_by_phi df.rows, df)

/-- One row of the `grouped` aggregation of `plot_time_vs_n`: mean and
std (carried squared) of `time_s` per `N`, over successful rows only. -/
structure TimeGroup where
  N : Int
  mean_time : ℚ
  stdSq_time : Option ℚ
deriving DecidableEq, Repr

/-- `plot_time_vs_n` lines 87–93: filter to `success`, convert
`time_ms` to seconds, group by `N`, aggregate mean/std. -/
def time_by_n (rows : List Trial) : List TimeGroup :=
  let srows := rows.filter (fun t => t.success)
  (groupKeys (srows.map (fun t => t.N))).map (fun k =>
    let g := srows.filter (fun t => t.N = k)
    let times := g.map (fun t => t.time_ms / 1000)
    { N := k
      mean_time := listMean times
      stdSq_time := sampleVar times })

/-- `plot_time_vs_n`: the function works on `df[df['success']].copy()`,
so the table it received is returned unchanged. -/
def plot_time_vs_n (df : DataFrame) : List TimeGroup × DataFrame :=
  (time_by_n df.rows, df)

/-- `bins = [0, 300, 500, 700, 900, 1200]` (lines 114 and 169). -/
def bins : List Int := [0, 300, 500, 700, 900, 1200]

/-- `labels = ['100-300', ..., '900-1200']` (lines 115 and 170). -/
def labels : List String := ["100-300", "300-500", "500-700", "700-900", "900-1200"]

/-- `pd.cut(df['N'], bins=bins, labels=labels)` with the default
`right=True`: the label of the half-open interval (lo, hi] containing
`n`, or `none` (NaN) when `n` falls outside every bin. -/
def rangeOf (n : Int) : Option String :=
  if 0 < n ∧ n ≤ 300 then some "100-300"
  else if 300 < n ∧ n ≤ 500 then some "300-500"
  else if 500 < n ∧ n ≤ 700 then some "500-700"
  else if 700 < n ∧ n ≤ 900 then some "700-900"
  else if 900 < n ∧ n ≤ 1200 then some "900-1200"
  else none

/-- Membership of `n` in the `i`-th bin of `bins`:
`bins[i] < n ≤ bins[i+1]`. -/
def binMem (i : Nat) (n : Int) : Prop :=
  i + 1 < bins.length ∧ bins.getD i 0 < n ∧ n ≤ bins.getD (i + 1) 0

instance (i : Nat) (n : Int) : Decidable (binMem i n) := by
  unfold binMem; infer_instance

/-- One row of `range_stats` in `plot_success_by_range`: per-bin success
rate (percent) and row count. -/
structure RangeGroup where
  label : String
  success_rate : ℚ
  count : Nat
deriving DecidableEq, Repr

/-- `plot_success_by_range` lines 119–123: group by the categorical
`range` column.  pandas groups a categorical with `observed=False`, so
every one of the five labels appears, an unobserved one with count 0
(its NaN rate is embedded as `0`, see header). -/
def range_stats (rows : List Trial) : List RangeGroup :=
  labels.map (fun lab =>
    let g := rows.filter (fun t => rangeOf t.N = some lab)
    { label := lab
      success_rate := 100 * listMean (g.map (fun t => boolQ t.success))
      count := g.length })

/-- Bar colouring, lines 130–137: `green` at exactly 100, `orange`
above 50 otherwise, `red` else. -/
def barColor (rate : ℚ) : String :=
  if rate = 100 then "green" else if rate > 50 then "orange" else "red"

/-- The colours of the five bars, in bar order. -/
def bar_colors (rows : List Trial) : List String :=
  (range_stats rows).map (fun g => barColor g.success_rate)

/-- The `n=<count>` labels placed on the five bars (lines 146–148), in
bar order. -/
def bar_counts (rows : List Trial) : List Nat :=
  (range_stats rows).map (fun g => g.count)

/-- `plot_success_by_range`: view plus the table after the call; line
116 assigns the derived `range` column into the received frame. -/
def plot_success_by_range (df : DataFrame) : List RangeGroup × DataFrame :=
  (range_stats df.rows,
   { df with rangeCol := some (df.rows.map (fun t => rangeOf t.N)) })

/-- One non-monotonicity line of the summary (lines 189–195): for a
looked-up `n`, `phi` and `phi_divisors` are read from the first
matching row (`n_df.iloc[0]`), the rate averages `success` over all
matching rows; no line when no row matches. -/
def nonmono_line (rows : List Trial) (n : Int) : Option (Int × Int × Int × ℚ) :=
  match rows.filter (fun t => t.N = n) with
  | [] => none
  | t :: rest =>
      some (n, t.phi, t.phi_divisors,
            100 * listMean ((t :: rest).map (fun s => boolQ s.success)))

/-- The data printed by `generate_summary_stats`. -/
structure SummaryView where
  total_trials : Nat
  total_success : Nat
  overall_rate : ℚ
  range_lines : List (String × Nat × Nat × ℚ)
  avg_time : Option ℚ
  nonmono : List (Int × Int × Int × ℚ)
deriving DecidableEq, Repr

/-- `generate_summary_stats` lines 159–195: overall counts and rate;
per-range `successes/count (rate)` lines for the nonempty ranges only
(lines 174–180); mean time over successful trials in seconds; the two
non-monotonicity lookups for N = 437 and N = 551. -/
def summary_view (rows : List Trial) : SummaryView :=
  { total_trials := rows.length
    total_success := (rows.filter (fun t => t.success)).length
    overall_rate :=
      ((rows.filter (fun t => t.success)).length : ℚ) / (rows.length : ℚ) * 100
    range_lines := labels.filterMap (fun lab =>
      let g := rows.filter (fun t => rangeOf t.N = some lab)
      if g.length > 0 then
        some (lab, (g.filter (fun t => t.success)).length, g.length,
              100 * listMean (g.map (fun t => boolQ t.success)))
      else none)
    avg_time :=
      (meanOpt ((rows.filter (fun t => t.success)).map (fun t => t.time_ms))).map
        (fun m => m / 1000)
    nonmono := [437, 551].filterMap (fun n => nonmono_line rows n) }

/-- `generate_summary_stats`: view plus the table after the call; line
171 assigns the derived `range` column into the received frame. -/
def generate_summary_stats (df : DataFrame) : SummaryView × DataFrame :=
  (summary_view df.rows,
   { df with rangeCol := some (df.rows.map (fun t => rangeOf t.N)) })

/-! ### Concrete input tables used by closed statements -/

/-- The two-row table of the spec's §8 example: `N=400, success=true,
time_ms=1000` and `N=400, success=false, time_ms=0`
(φ(400) = 160, which has 12 divisors). -/
def c2rows : List Trial :=
  [{ N := 400, phi := 160, phi_divisors := 12, strategy := "smooth",
     success := true, time_ms := 1000 },
   { N := 400, phi := 160, phi_divisors := 12, strategy := "smooth",
     success := false, time_ms := 0 }]

/-- A freshly loaded one-row table (no `range` column yet). -/
def c1df : DataFrame :=
  { rows := [{ N := 100, phi := 40, phi_divisors := 8, strategy := "smooth",
               success := true, time_ms := 10 }],
    rangeCol := none }

/-- First row of a table with two N=437 trials whose `phi` and
`phi_divisors` entries disagree (φ(437) = 396 with 18 divisors;
the second row carries deliberately different values). -/
def w10t : Trial :=
  { N := 437, phi := 396, phi_divisors := 18, strategy := "smooth",
    success := true, time_ms := 5 }

/-- Remaining rows of that table. -/
def w10rest : List Trial :=
  [{ N := 437, phi := 999, phi_divisors := 7, strategy := "smooth",
     success := false, time_ms := 0 }]

/-- A table where two rows share N=437 but disagree on `phi` and
`phi_divisors`. -/
def w10rows : List Trial := w10t :: w10rest

/-- A three-row table whose `N` values all lie in (0, 1200]. -/
def w7rows : List Trial :=
  [{ N := 100, phi := 40, phi_divisors := 8, strategy := "smooth",
     success := true, time_ms := 10 },
   { N := 100, phi := 40, phi_divisors := 8, strategy := "smooth",
     success := false, time_ms := 0 },
   { N := 1000, phi := 400, phi_divisors := 15, strategy := "smooth",
     success := true, time_ms := 20 }]

/-- A one-row table with one fully successful bin. -/
def w8rows : List Trial :=
  [{ N := 100, phi := 40, phi_divisors := 8, strategy := "smooth",
     success := true, time_ms := 10 }]

/-- The first bin of `range_stats w8rows`: all of its one trial
succeeded. -/
def g8 : RangeGroup := { label := "100-300", success_rate := 100, count := 1 }

/-! ### Helper lemmas about the embedding -/

theorem groupKeys_nodup (ks : List Int) : (groupKeys ks).Nodup :=
  (List.perm_insertionSort _ _).nodup_iff.mpr (List.nodup_dedup ks)

theorem mem_groupKeys {ks : List Int} {k : Int} : k ∈ groupKeys ks ↔ k ∈ ks := by
  unfold groupKeys
  rw [(List.perm_insertionSort _ _).mem_iff, List.mem_dedup]

theorem groupKeys_pairwise_lt (ks : List Int) : (groupKeys ks).Pairwise (· < ·) := by
  have hs : (groupKeys ks).Pairwise (· ≤ ·) := List.sorted_insertionSort _ _
  have hn : (groupKeys ks).Pairwise (· ≠ ·) := groupKeys_nodup ks
  exact (hs.and hn).imp (fun h => lt_of_le_of_ne h.1 h.2)

theorem listMean_bounds {l : List ℚ} (h : ∀ x ∈ l, 0 ≤ x ∧ x ≤ 1) :
    0 ≤ listMean l ∧ listMean l ≤ 1 := by
  unfold listMean
  rcases l with _ | ⟨a, l⟩
  · simp
  · have hlen : (0 : ℚ) < ((a :: l).length : ℚ) := by
      exact_mod_cast Nat.succ_pos l.length
    constructor
    · exact div_nonneg (List.sum_nonneg fun x hx => (h x hx).1) hlen.le
    · rw [div_le_one hlen]
      calc (a :: l).sum ≤ (a :: l).length • (1 : ℚ) :=
            List.sum_le_card_nsmul _ _ fun x hx => (h x hx).2
        _ = ((a :: l).length : ℚ) := by simp

theorem boolQ_bounds (b : Bool) : 0 ≤ boolQ b ∧ boolQ b ≤ 1 := by
  cases b <;> simp [boolQ]

/-- A group success rate (mean of 0/1 values, scaled to percent) lies in
[0, 100]. -/
theorem rate_bounds (g : List Trial) :
    0 ≤ 100 * listMean (g.map (fun t => boolQ t.success)) ∧
      100 * listMean (g.map (fun t => boolQ t.success)) ≤ 100 := by
  have h := listMean_bounds (l := g.map (fun t => boolQ t.success)) ?_
  · constructor
    · nlinarith [h.1]
    · nlinarith [h.2]
  · intro x hx
    obtain ⟨t, _, rfl⟩ := List.mem_map.mp hx
    exact boolQ_bounds t.success

theorem indicator_sum_zero {κ : Type} [DecidableEq κ] (x : κ) :
    ∀ ks : List κ, x ∉ ks → (ks.map (fun k => if x = k then (1 : ℕ) else 0)).sum = 0
  | [], _ => rfl
  | k :: ks, h => by
    have hx : x ≠ k := fun e => h (e ▸ List.mem_cons_self k ks)
    simp only [List.map_cons, List.sum_cons, if_neg hx, Nat.zero_add]
    exact indicator_sum_zero x ks (fun hm => h (List.mem_cons_of_mem _ hm))

theorem indicator_sum_one {κ : Type} [DecidableEq κ] (x : κ) :
    ∀ ks : List κ, ks.Nodup → x ∈ ks →
      (ks.map (fun k => if x = k then (1 : ℕ) else 0)).sum = 1 := by
  intro ks
  induction ks with
  | nil => intro _ h; cases h
  | cons k ks ih =>
    intro hnd hmem
    rcases List.mem_cons.mp hmem with rfl | hmem
    · simp only [List.map_cons, List.sum_cons, if_pos rfl]
      rw [indicator_sum_zero x ks (List.nodup_cons.mp hnd).1]
      simp
    · have hx : x ≠ k := fun e => (List.nodup_cons.mp hnd).1 (e ▸ hmem)
      simp only [List.map_cons, List.sum_cons, if_neg hx, Nat.zero_add]
      exact ih (List.nodup_cons.mp hnd).2 hmem

theorem sum_map_addf {κ : Type} (f g : κ → ℕ) :
    ∀ ks : List κ, (ks.map (fun k => f k + g k)).sum = (ks.map f).sum + (ks.map g).sum
  | [] => rfl
  | k :: ks => by
    simp only [List.map_cons, List.sum_cons, sum_map_addf f g ks]
    omega

/-- Partition counting: if the (decidable) keys of all rows lie in a
duplicate-free key list, the per-key filter lengths sum to the number of
rows. -/
theorem sum_counts {α κ : Type} [DecidableEq κ] (key : α → κ) (ks : List κ)
    (hnd : ks.Nodup) :
    ∀ rows : List α, (∀ t ∈ rows, key t ∈ ks) →
      (ks.map (fun k => (rows.filter (fun t => key t = k)).length)).sum = rows.length := by
  intro rows
  induction rows with
  | nil =>
    intro _
    simp
  | cons a l ih =>
    intro hcov
    have hstep : ∀ k : κ,
        ((a :: l).filter (fun t => key t = k)).length =
          (if key a = k then 1 else 0) + (l.filter (fun t => key t = k)).length := by
      intro k
      by_cases h : key a = k
      · simp [List.filter_cons, h]
        omega
      · simp [List.filter_cons, h]
    calc (ks.map (fun k => ((a :: l).filter (fun t => key t = k)).length)).sum
        = (ks.map (fun k =>
            (if key a = k then 1 else 0) + (l.filter (fun t => key t = k)).length)).sum := by
          exact congrArg List.sum (List.map_congr_left fun k _ => hstep k)
      _ = (ks.map (fun k => if key a = k then 1 else 0)).sum
            + (ks.map (fun k => (l.filter (fun t => key t = k)).length)).sum :=
          sum_map_addf _ _ ks
      _ = 1 + l.length := by
          rw [indicator_sum_one (key a) ks hnd (hcov a (List.mem_cons_self a l)),
            ih (fun t ht => hcov t (List.mem_cons_of_mem a ht))]
      _ = (a :: l).length := by simp [Nat.add_comm]

/-- A row placed in a bin by `pd.cut` has `N` in (0, 1200]. -/
theorem rangeOf_some_inRange {n : Int} {lab : String} (h : rangeOf n = some lab) :
    0 < n ∧ n ≤ 1200 := by
  unfold rangeOf at h
  split_ifs at h with h1 h2 h3 h4 h5
  · omega
  · omega
  · omega
  · omega
  · omega

/-- Every `N` in (0, 1200] is placed in one of the five labelled bins. -/
theorem inRange_rangeOf {n : Int} (h1 : 0 < n) (h2 : n ≤ 1200) :
    ∃ lab ∈ labels, rangeOf n = some lab := by
  unfold rangeOf
  split_ifs with hb1 hb2 hb3 hb4 hb5 <;> first
    | exact ⟨_, by simp [labels], rfl⟩
    | omega

/-- The first component of a printed non-monotonicity line is the
looked-up `N`. -/
theorem nonmono_line_fst {rows : List Trial} {n : Int} {e : Int × Int × Int × ℚ}
    (h : nonmono_line rows n = some e) : e.1 = n := by
  unfold nonmono_line at h
  split at h
  · exact absurd h (by simp)
  · rw [Option.some.injEq] at h
    rw [← h]

theorem success_by_n_map_N (rows : List Trial) :
    (success_by_n rows).map (fun g => g.N) = groupKeys (rows.map (fun t => t.N)) := by
  simp [success_by_n, List.map_map, Function.comp_def]

theorem mem_success_by_n {rows : List Trial} {g : NGroup} (hg : g ∈ success_by_n rows) :
    g.N ∈ groupKeys (rows.map (fun t => t.N)) ∧
      g.success_rate =
        100 * listMean ((rows.filter (fun t => t.N = g.N)).map (fun t => boolQ t.success)) ∧
      g.stdSq =
        (sampleVar ((rows.filter (fun t => t.N = g.N)).map (fun t => boolQ t.success))).map
          (fun v => 10000 * v) ∧
      g.count = (rows.filter (fun t => t.N = g.N)).length := by
  obtain ⟨k, hk, rfl⟩ := List.mem_map.mp hg
  exact ⟨hk, rfl, rfl, rfl⟩

theorem mem_time_by_n {rows : List Trial} {g : TimeGroup} (hg : g ∈ time_by_n rows) :
    g.N ∈ groupKeys ((rows.filter (fun t => t.success)).map (fun t => t.N)) ∧
      g.mean_time = listMean (((rows.filter (fun t => t.success)).filter
          (fun t => t.N = g.N)).map (fun t => t.time_ms / 1000)) ∧
      g.stdSq_time = sampleVar (((rows.filter (fun t => t.success)).filter
          (fun t => t.N = g.N)).map (fun t => t.time_ms / 1000)) := by
  obtain ⟨k, hk, rfl⟩ := List.mem_map.mp hg
  exact ⟨hk, rfl, rfl⟩

theorem mem_range_stats {rows : List Trial} {g : RangeGroup} (hg : g ∈ range_stats rows) :
    g.label ∈ labels ∧
      g.success_rate =
        100 * listMean ((rows.filter (fun t => rangeOf t.N = some g.label)).map
          (fun t => boolQ t.success)) ∧
      g.count = (rows.filter (fun t => rangeOf t.N = some g.label)).length := by
  obtain ⟨lab, hlab, rfl⟩ := List.mem_map.mp hg
  exact ⟨hlab, rfl, rfl⟩

theorem range_stats_counts (rows : List Trial) :
    (range_stats rows).map (fun g => g.count)
      = labels.map (fun lab => (rows.filter (fun t => rangeOf t.N = some lab)).length) := by
  simp [range_stats, List.map_map, Function.comp_def]

/-- Restricting a table to rows with `N` in (0, 1200] does not change
any bin's rows: a binned row is in range already. -/
theorem filter_inRange_group (rows : List Trial) (lab : String) :
    (rows.filter (fun t => 0 < t.N ∧ t.N ≤ 1200)).filter
        (fun t => rangeOf t.N = some lab)
      = rows.filter (fun t => rangeOf t.N = some lab) := by
  rw [List.filter_filter]
  apply List.filter_congr
  intro t _
  by_cases hq : rangeOf t.N = some lab
  · have hin := rangeOf_some_inRange hq
    simp [hq, hin.1, hin.2]
  · simp [hq]

theorem range_stats_inRange (rows : List Trial) :
    range_stats (rows.filter (fun t => 0 < t.N ∧ t.N ≤ 1200)) = range_stats rows := by
  unfold range_stats
  simp only [filter_inRange_group]

theorem summary_range_lines_inRange (rows : List Trial) :
    (summary_view (rows.filter (fun t => 0 < t.N ∧ t.N ≤ 1200))).range_lines
      = (summary_view rows).range_lines := by
  unfold summary_view
  simp only [filter_inRange_group]

theorem binMem_iff (i : Nat) (n : Int) :
    binMem i n ↔
      (i = 0 ∧ 0 < n ∧ n ≤ 300) ∨ (i = 1 ∧ 300 < n ∧ n ≤ 500) ∨
      (i = 2 ∧ 500 < n ∧ n ≤ 700) ∨ (i = 3 ∧ 700 < n ∧ n ≤ 900) ∨
      (i = 4 ∧ 900 < n ∧ n ≤ 1200) := by
  constructor
  · intro h
    have h1 := h.1
    rw [show bins.length = 6 from rfl] at h1
    have h5 : i < 5 := by omega
    interval_cases i
    · exact Or.inl ⟨rfl, h.2⟩
    · exact Or.inr (Or.inl ⟨rfl, h.2⟩)
    · exact Or.inr (Or.inr (Or.inl ⟨rfl, h.2⟩))
    · exact Or.inr (Or.inr (Or.inr (Or.inl ⟨rfl, h.2⟩)))
    · exact Or.inr (Or.inr (Or.inr (Or.inr ⟨rfl, h.2⟩)))
  · rintro (⟨rfl, h⟩ | ⟨rfl, h⟩ | ⟨rfl, h⟩ | ⟨rfl, h⟩ | ⟨rfl, h⟩) <;>
      exact ⟨by decide, h⟩

/-- `pd.cut` against `bins`/`labels`, unfolded to the five half-open
intervals, bin by bin. -/
theorem rangeOf_iff (n : Int) :
    (rangeOf n = some "100-300" ↔ 0 < n ∧ n ≤ 300) ∧
    (rangeOf n = some "300-500" ↔ 300 < n ∧ n ≤ 500) ∧
    (rangeOf n = some "500-700" ↔ 500 < n ∧ n ≤ 700) ∧
    (rangeOf n = some "700-900" ↔ 700 < n ∧ n ≤ 900) ∧
    (rangeOf n = some "900-1200" ↔ 900 < n ∧ n ≤ 1200) ∧
    (rangeOf n = none ↔ ¬(0 < n ∧ n ≤ 1200)) := by
  unfold rangeOf
  split_ifs with h1 h2 h3 h4 h5 <;>
    refine ⟨?_, ?_, ?_, ?_, ?_, ?_⟩ <;> simp <;> omega

/-! ### Claim theorems -/

/-- Claim C1, counterexample: the claim says every operation leaves the
loaded table unchanged, but `plot_success_by_range` assigns the derived
`range` column into the frame it receives (`df['range'] = pd.cut(...)`,
line 116), so on a freshly loaded table the table after the call differs
from the table before it. -/
theorem c1_counterexample : (plot_success_by_range c1df).2 ≠ c1df := by decide

/-- Claim C1, amended: `successRateByN`, `successRateByPhiDivisors` and
`timeToFactor` leave the table they receive unchanged (`timeToFactor`
adds its seconds column to a copy), while `successByRange` and `summary`
each write the derived `range` column into the received table in place,
leaving the rows (and hence every CSV column) unchanged. -/
theorem c1_amended (df : DataFrame) :
    (plot_success_vs_n df).2 = df ∧
    (plot_success_vs_phi_divisors df).2 = df ∧
    (plot_time_vs_n df).2 = df ∧
    (plot_success_by_range df).2 =
      { rows := df.rows, rangeCol := some (df.rows.map (fun t => rangeOf t.N)) } ∧
    (generate_summary_stats df).2 =
      { rows := df.rows, rangeCol := some (df.rows.map (fun t => rangeOf t.N)) } ∧
    (plot_success_by_range df).2.rows = df.rows ∧
    (generate_summary_stats df).2.rows = df.rows :=
  ⟨rfl, rfl, rfl, rfl, rfl, rfl, rfl⟩

/-- Claim C2: on the two-row table with `N=400, success=true,
time_ms=1000` and `N=400, success=false, time_ms=0`, `successRateByN`
yields the single group (N=400, rate 50%, count 2) — with std² = 5000,
i.e. std = 100·(1/√2) — and `timeToFactor` yields the single group
(N=400, mean 1 second) computed from the one successful row (its std is
NaN, a single-element group). -/
theorem c2_example :
    success_by_n c2rows =
      [{ N := 400, success_rate := 50, stdSq := some 5000, count := 2 }] ∧
    time_by_n c2rows = [{ N := 400, mean_time := 1, stdSq_time := none }] := by
  constructor
  · simp [c2rows, success_by_n, groupKeys, List.insertionSort, List.orderedInsert,
      listMean, sampleVar, boolQ]
    norm_num
  · simp [c2rows, time_by_n, groupKeys, List.insertionSort, List.orderedInsert,
      listMean, sampleVar, boolQ]

/-- Claim C9: `plot_time_vs_n` works on `df[df['success']].copy()`
(line 87), so the table it receives — rows and `range` column alike —
is the same after the call as before it. -/
theorem c9_no_mutation (df : DataFrame) :
    (plot_time_vs_n df).2 = df ∧ (plot_time_vs_n df).2.rows = df.rows ∧
      (plot_time_vs_n df).2.rangeCol = df.rangeCol :=
  ⟨rfl, rfl, rfl⟩

/-- Claim C6: `successRateByN` yields tuples in strictly ascending `N`
order (so exactly one tuple per distinct `N`), a group existing exactly
for the `N` values present in the table, with rate = 100 × the mean of
`success` over the group and count = the group's row count. -/
theorem c6_success_by_n_shape (rows : List Trial) :
    ((success_by_n rows).map (fun g => g.N)).Pairwise (· < ·) ∧
    (∀ k : Int, (∃ t ∈ rows, t.N = k) ↔ ∃ g ∈ success_by_n rows, g.N = k) ∧
    (∀ g ∈ success_by_n rows,
      g.success_rate =
        100 * listMean ((rows.filter (fun t => t.N = g.N)).map (fun t => boolQ t.success)) ∧
      g.count = (rows.filter (fun t => t.N = g.N)).length) := by
  refine ⟨?_, ?_, ?_⟩
  · rw [success_by_n_map_N]
    exact groupKeys_pairwise_lt _
  · intro k
    constructor
    · rintro ⟨t, ht, rfl⟩
      have hk : t.N ∈ groupKeys (rows.map (fun t => t.N)) :=
        mem_groupKeys.mpr (List.mem_map_of_mem _ ht)
      exact ⟨_, List.mem_map_of_mem _ hk, rfl⟩
    · rintro ⟨g, hg, rfl⟩
      obtain ⟨t, ht, hN⟩ := List.mem_map.mp (mem_groupKeys.mp (mem_success_by_n hg).1)
      exact ⟨t, ht, hN⟩
  · intro g hg
    exact ⟨(mem_success_by_n hg).2.1, (mem_success_by_n hg).2.2.2⟩

/-- Claim C5: `timeToFactor` aggregates successful rows only — failed
rows can be removed from the table without changing the output, every
group's mean and (squared) std are computed from the successful rows'
times converted to seconds, and an `N` with no successful row has no
group in the output. -/
theorem c5_time_by_n (rows : List Trial) :
    time_by_n rows = time_by_n (rows.filter (fun t => t.success)) ∧
    (∀ g ∈ time_by_n rows,
      (∃ t ∈ rows, t.success = true ∧ t.N = g.N) ∧
      g.mean_time = listMean (((rows.filter (fun t => t.success)).filter
          (fun t => t.N = g.N)).map (fun t => t.time_ms / 1000)) ∧
      g.stdSq_time = sampleVar (((rows.filter (fun t => t.success)).filter
          (fun t => t.N = g.N)).map (fun t => t.time_ms / 1000))) ∧
    (∀ k : Int, (∀ t ∈ rows, t.success = true → t.N ≠ k) →
      ∀ g ∈ time_by_n rows, g.N ≠ k) := by
  refine ⟨?_, ?_, ?_⟩
  · simp [time_by_n, List.filter_filter]
  · intro g hg
    refine ⟨?_, (mem_time_by_n hg).2.1, (mem_time_by_n hg).2.2⟩
    obtain ⟨t, ht, hN⟩ := List.mem_map.mp (mem_groupKeys.mp (mem_time_by_n hg).1)
    have hm := List.mem_filter.mp ht
    exact ⟨t, hm.1, by simpa using hm.2, hN⟩
  · intro k hk g hg hNk
    obtain ⟨t, ht, hN⟩ := List.mem_map.mp (mem_groupKeys.mp (mem_time_by_n hg).1)
    have hm := List.mem_filter.mp ht
    exact hk t hm.1 (by simpa using hm.2) (hN.trans hNk)

/-- Claim C3: the summary prints a non-monotonicity line for N=437
exactly when the table has a row with N=437; when present, its rate is
the mean of `success` over all N=437 rows, scaled by 100. -/
theorem c3_summary_437 (rows : List Trial) :
    ((∃ t ∈ rows, t.N = 437) →
      ∃ p d : Int,
        (437, p, d,
          100 * listMean ((rows.filter (fun t => t.N = 437)).map (fun t => boolQ t.success)))
          ∈ (summary_view rows).nonmono) ∧
    ((∀ t ∈ rows, t.N ≠ 437) → ∀ e ∈ (summary_view rows).nonmono, e.1 ≠ 437) := by
  constructor
  · rintro ⟨t, ht, htN⟩
    have hmem : t ∈ rows.filter (fun s => s.N = 437) :=
      List.mem_filter.mpr ⟨ht, by simp [htN]⟩
    cases hf : rows.filter (fun s => s.N = 437) with
    | nil => rw [hf] at hmem; cases hmem
    | cons a rest =>
      refine ⟨a.phi, a.phi_divisors, ?_⟩
      have hline : nonmono_line rows 437 =
          some (437, a.phi, a.phi_divisors,
            100 * listMean ((a :: rest).map (fun s => boolQ s.success))) := by
        unfold nonmono_line
        rw [hf]
      exact List.mem_filterMap.mpr ⟨437, by simp, hline⟩
  · intro h e he
    have hf : rows.filter (fun s => s.N = 437) = [] :=
      List.filter_eq_nil_iff.mpr (fun t ht => by simpa using h t ht)
    have hnone : nonmono_line rows 437 = none := by
      unfold nonmono_line
      rw [hf]
    obtain ⟨n, hn, hsome⟩ := List.mem_filterMap.mp he
    intro he437
    have hn437 : n = 437 := by rw [← nonmono_line_fst hsome, he437]
    rw [hn437, hnone] at hsome
    cases hsome

/-- Claim C10: for the N=437/N=551 lookups, `phi` and `phi_divisors`
are read from the first matching row only (`n_df.iloc[0]`), while the
rate averages `success` over all matching rows; later rows' `phi` and
`phi_divisors` values are ignored. -/
theorem c10_first_row (rows : List Trial) (n : Int) (t : Trial) (rest : List Trial)
    (hn : n = 437 ∨ n = 551)
    (hf : rows.filter (fun s => s.N = n) = t :: rest) :
    nonmono_line rows n =
      some (n, t.phi, t.phi_divisors,
        100 * listMean ((t :: rest).map (fun s => boolQ s.success))) ∧
    (n, t.phi, t.phi_divisors,
        100 * listMean ((t :: rest).map (fun s => boolQ s.success)))
      ∈ (summary_view rows).nonmono := by
  have hline : nonmono_line rows n =
      some (n, t.phi, t.phi_divisors,
        100 * listMean ((t :: rest).map (fun s => boolQ s.success))) := by
    unfold nonmono_line
    rw [hf]
  refine ⟨hline, List.mem_filterMap.mpr ⟨n, ?_, hline⟩⟩
  rcases hn with rfl | rfl <;> simp

/-- Claim C10, witness: on `w10rows`, whose two N=437 rows disagree on
`phi` (396 versus 999) and `phi_divisors` (18 versus 7), the printed
line carries the first row's 396 and 18 and the 50% rate over both. -/
theorem c10_witness :
    nonmono_line w10rows 437 =
      some (437, w10t.phi, w10t.phi_divisors,
        100 * listMean ((w10t :: w10rest).map (fun s => boolQ s.success))) ∧
    (437, w10t.phi, w10t.phi_divisors,
        100 * listMean ((w10t :: w10rest).map (fun s => boolQ s.success)))
      ∈ (summary_view w10rows).nonmono :=
  c10_first_row w10rows 437 w10t w10rest (Or.inl rfl) rfl

/-- Claim C7: when every `N` of the table lies in (0, 1200] — so every
row falls into a bin — the per-bin counts of `successByRange` sum to
the table's row count, and the per-group counts of `successRateByN`
always do. -/
theorem c7_counts (rows : List Trial) (h : ∀ t ∈ rows, 0 < t.N ∧ t.N ≤ 1200) :
    ((range_stats rows).map (fun g => g.count)).sum = rows.length ∧
    ((success_by_n rows).map (fun g => g.count)).sum = rows.length := by
  constructor
  · rw [range_stats_counts]
    have hnd : (labels.map some).Nodup :=
      List.Nodup.map (Option.some_injective String) (by decide)
    have hsum := sum_counts (fun t : Trial => rangeOf t.N) (labels.map some) hnd rows ?_
    · rw [List.map_map] at hsum
      simpa [Function.comp_def] using hsum
    · intro t ht
      obtain ⟨lab, hlab, heq⟩ := inRange_rangeOf (h t ht).1 (h t ht).2
      show rangeOf t.N ∈ labels.map some
      rw [heq]
      exact List.mem_map_of_mem some hlab
  · have hmap : (success_by_n rows).map (fun g => g.count)
        = (groupKeys (rows.map (fun t => t.N))).map
            (fun k => (rows.filter (fun t => t.N = k)).length) := by
      simp [success_by_n, List.map_map, Function.comp_def]
    rw [hmap]
    exact sum_counts (fun t : Trial => t.N) _ (groupKeys_nodup _) rows
      (fun t ht => mem_groupKeys.mpr (List.mem_map_of_mem _ ht))

/-- Claim C7, witness: on the three-row in-range table `w7rows`, both
count sums equal 3. -/
theorem c7_witness :
    ((range_stats w7rows).map (fun g => g.count)).sum = w7rows.length ∧
    ((success_by_n w7rows).map (fun g => g.count)).sum = w7rows.length :=
  c7_counts w7rows (by decide)

/-- Claim C8: the colour of the `i`-th bar is a function of the `i`-th
bin's success rate alone — green exactly at rate 100, orange for rates
strictly between 50 and 100 (rates never exceed 100), red at or below
50 — and the `i`-th bar is annotated with the `i`-th bin's count. -/
theorem c8_bar_colors (rows : List Trial) (i : Nat) (g : RangeGroup)
    (hg : (range_stats rows)[i]? = some g) :
    (bar_colors rows)[i]? = some (barColor g.success_rate) ∧
    (bar_counts rows)[i]? = some g.count ∧
    g.success_rate ≤ 100 ∧
    (g.success_rate = 100 → barColor g.success_rate = "green") ∧
    (50 < g.success_rate → g.success_rate < 100 → barColor g.success_rate = "orange") ∧
    (g.success_rate ≤ 50 → barColor g.success_rate = "red") := by
  have hmem : g ∈ range_stats rows := List.getElem?_mem hg
  refine ⟨?_, ?_, ?_, ?_, ?_, ?_⟩
  · simp [bar_colors, List.getElem?_map, hg]
  · simp [bar_counts, List.getElem?_map, hg]
  · rw [(mem_range_stats hmem).2.1]
    exact (rate_bounds _).2
  · intro h100
    simp [barColor, h100]
  · intro h50 hlt
    have hne : g.success_rate ≠ 100 := ne_of_lt hlt
    simp [barColor, hne, h50]
  · intro h50
    have hne : g.success_rate ≠ 100 := by
      intro e
      rw [e] at h50
      norm_num at h50
    have hnlt : ¬ (50 : ℚ) < g.success_rate := not_lt.mpr h50
    simp [barColor, hne, hnlt]

/-- Claim C8, witness: on the one-row table `w8rows` the first bin has
rate 100 and count 1, and its bar is coloured by `barColor`. -/
theorem c8_witness :
    (bar_colors w8rows)[0]? = some (barColor g8.success_rate) ∧
    (bar_counts w8rows)[0]? = some g8.count ∧
    g8.success_rate ≤ 100 ∧
    (g8.success_rate = 100 → barColor g8.success_rate = "green") ∧
    (50 < g8.success_rate → g8.success_rate < 100 → barColor g8.success_rate = "orange") ∧
    (g8.success_rate ≤ 50 → barColor g8.success_rate = "red") :=
  c8_bar_colors w8rows 0 g8 (by
    simp [range_stats, labels, w8rows, listMean, boolQ, rangeOf, g8])

/-- Claim C4: `successByRange` bins `N` into exactly the five half-open
intervals (0,300], (300,500], (500,700], (700,900], (900,1200]; the
bins are pairwise disjoint and cover (0,1200]; and a row with `N`
outside (0,1200] contributes to no bin of `range_stats` and to no line
of the summary's per-range breakdown (dropping all such rows changes
neither). -/
theorem c4_bins :
    (∀ (n : Int) (i j : Nat), binMem i n → binMem j n → i = j) ∧
    (∀ n : Int, 0 < n → n ≤ 1200 → ∃ i, binMem i n) ∧
    (∀ n : Int,
      (rangeOf n = some "100-300" ↔ 0 < n ∧ n ≤ 300) ∧
      (rangeOf n = some "300-500" ↔ 300 < n ∧ n ≤ 500) ∧
      (rangeOf n = some "500-700" ↔ 500 < n ∧ n ≤ 700) ∧
      (rangeOf n = some "700-900" ↔ 700 < n ∧ n ≤ 900) ∧
      (rangeOf n = some "900-1200" ↔ 900 < n ∧ n ≤ 1200) ∧
      (rangeOf n = none ↔ ¬(0 < n ∧ n ≤ 1200))) ∧
    (∀ rows : List Trial,
      range_stats (rows.filter (fun t => 0 < t.N ∧ t.N ≤ 1200)) = range_stats rows ∧
      (summary_view (rows.filter (fun t => 0 < t.N ∧ t.N ≤ 1200))).range_lines
        = (summary_view rows).range_lines) := by
  refine ⟨?_, ?_, rangeOf_iff, fun rows => ⟨range_stats_inRange rows,
    summary_range_lines_inRange rows⟩⟩
  · intro n i j hi hj
    rw [binMem_iff] at hi hj
    omega
  · intro n hn1 hn2
    rcases (by omega :
        (0 < n ∧ n ≤ 300) ∨ (300 < n ∧ n ≤ 500) ∨ (500 < n ∧ n ≤ 700) ∨
        (700 < n ∧ n ≤ 900) ∨ (900 < n ∧ n ≤ 1200)) with h | h | h | h | h
    · exact ⟨0, (binMem_iff 0 n).mpr (Or.inl ⟨rfl, h⟩)⟩
    · exact ⟨1, (binMem_iff 1 n).mpr (Or.inr (Or.inl ⟨rfl, h⟩))⟩
    · exact ⟨2, (binMem_iff 2 n).mpr (Or.inr (Or.inr (Or.inl ⟨rfl, h⟩)))⟩
    · exact ⟨3, (binMem_iff 3 n).mpr (Or.inr (Or.inr (Or.inr (Or.inl ⟨rfl, h⟩))))⟩
    · exact ⟨4, (binMem_iff 4 n).mpr (Or.inr (Or.inr (Or.inr (Or.inr ⟨rfl, h⟩))))⟩

end PlotResults
